import Mathlib

/-!
Verification of the request-orchestration pipeline of `python-mcp-ai-agent`
(`src/ai_agent_debug.py` and `src/mcp_client.py`).

Shallow embedding conventions:
* Python text is modelled as `List Char` (the agent's cleaning code) or
  `String` (boundaries); `str.strip()` is `pyStrip`.
* Parsed JSON values (the result of `json.loads`) are the inductive `Json`;
  Python's dynamic typing means extracted fields (`ToolCall` components,
  the `reasoning` value) keep type `Json`.
* `json.loads` is `json_loads`, a strict fuel-based recursive-descent parser
  of the RFC 8259 grammar (plus Python's `NaN`/`Infinity` extensions).
  Numeric lexemes are kept as text: the pipeline never computes with numbers.
  Unmodelled corners (noted where they occur): `\u` surrogate pairs are not
  combined, and `str.strip` ignores non-ASCII whitespace.
* Fallible Python code (code that may raise) returns `Except String`, the
  error being `str(e)`; exception messages that depend on Python's `repr`
  of dynamic values are abbreviated where no claim depends on them.
* The external reasoning backend (Gemini/Anthropic) and the remote tool
  providers are oracles: the backend response is an `Except String String`
  input, a registered connector is a total function
  `Json → Json → MCPToolResult` (Python's `MCPClient.call_tool` catches all
  exceptions and returns an error result, so it is total).
-/

set_option maxRecDepth 100000

/-- Python whitespace stripped by `str.strip()` (ASCII part). -/
def isPySpace (c : Char) : Bool :=
  c = ' ' || c = '\t' || c = '\n' || c = '\r' || c = '\x0b' || c = '\x0c'

/-- Model of `str.strip()`: drop leading and trailing whitespace. -/
def pyStrip (cs : List Char) : List Char :=
  ((cs.dropWhile isPySpace).reverse.dropWhile isPySpace).reverse

/-- Match a literal character sequence at the front, returning the remainder.
`dropLit pat cs = some rest` iff `cs = pat ++ rest`. -/
def dropLit : List Char → List Char → Option (List Char)
  | [], cs => some cs
  | _ :: _, [] => none
  | p :: ps, c :: cs => if c = p then dropLit ps cs else none

/-- Model of `str.startswith(pat)`. -/
def startsList (pat cs : List Char) : Bool :=
  (dropLit pat cs).isSome

/-- Model of `str.endswith(pat)`. -/
def endsList (pat cs : List Char) : Bool :=
  (dropLit pat.reverse cs.reverse).isSome

/-- The opening fence the agent strips: the Python literal "```json". -/
def fenceTag : List Char := ("```json").toList

/-- A bare fence "```" (only checked at the end of the text by the agent). -/
def fenceBare : List Char := ("```").toList

/-- Model of the response-cleaning step of `AIAgentDebug._select_tools`
(`ai_agent_debug.py` lines 145-153):
strip, drop a leading "```json" (7 characters), drop a trailing "```"
(3 characters), strip again. -/
def cleanContent (raw : List Char) : List Char :=
  let c := pyStrip raw
  let c := if startsList fenceTag c then c.drop 7 else c
  let c := if endsList fenceBare c then (c.reverse.drop 3).reverse else c
  pyStrip c

/-- Parsed JSON values, the result type of `json.loads`.  Object fields are
kept in insertion order with unique keys (Python `dict` semantics); numeric
lexemes are kept as text. -/
inductive Json where
  | null : Json
  | bool : Bool → Json
  | num : String → Json
  | str : String → Json
  | arr : List Json → Json
  | obj : List (String × Json) → Json

/-- Association-list lookup with propositional key comparison
(Python `dict` read). -/
def alistGet (k : String) : List (String × α) → Option α
  | [] => none
  | (k0, v) :: rest => if k0 = k then some v else alistGet k rest

/-- Python `dict` write during JSON object construction: replace the value at
an existing key keeping its position, else append. -/
def upsert (k : String) (v : Json) : List (String × Json) → List (String × Json)
  | [] => [(k, v)]
  | (k0, v0) :: rest =>
      if k0 = k then (k0, v) :: rest else (k0, v0) :: upsert k v rest

/-- JSON whitespace (RFC 8259: space, tab, line feed, carriage return). -/
def isJsonWs (c : Char) : Bool :=
  c = ' ' || c = '\t' || c = '\n' || c = '\r'

/-- Skip JSON whitespace. -/
def skipWs (cs : List Char) : List Char := cs.dropWhile isJsonWs

/-- Value of a hexadecimal digit. -/
def hexVal (c : Char) : Option Nat :=
  if 48 ≤ c.toNat ∧ c.toNat ≤ 57 then some (c.toNat - 48)
  else if 97 ≤ c.toNat ∧ c.toNat ≤ 102 then some (c.toNat - 87)
  else if 65 ≤ c.toNat ∧ c.toNat ≤ 70 then some (c.toNat - 55)
  else none

/-- Parse the body of a JSON string literal (after the opening quote) with
the RFC 8259 escapes; strict mode rejects raw control characters, as Python
does.  A lone `\u` escape becomes one code point (surrogate pairs are not
combined; no claim exercises them). -/
def parseJStr : Nat → List Char → List Char → Option (String × List Char)
  | 0, _, _ => none
  | _ + 1, _, [] => none
  | fuel + 1, acc, c :: rest =>
    if c = '"' then some (String.mk acc.reverse, rest)
    else if c = '\\' then
      match rest with
      | [] => none
      | e :: rest2 =>
        if e = '"' then parseJStr fuel ('"' :: acc) rest2
        else if e = '\\' then parseJStr fuel ('\\' :: acc) rest2
        else if e = '/' then parseJStr fuel ('/' :: acc) rest2
        else if e = 'b' then parseJStr fuel ('\x08' :: acc) rest2
        else if e = 'f' then parseJStr fuel ('\x0c' :: acc) rest2
        else if e = 'n' then parseJStr fuel ('\n' :: acc) rest2
        else if e = 'r' then parseJStr fuel ('\x0d' :: acc) rest2
        else if e = 't' then parseJStr fuel ('\t' :: acc) rest2
        else if e = 'u' then
          match rest2 with
          | h1 :: h2 :: h3 :: h4 :: rest3 =>
            match hexVal h1, hexVal h2, hexVal h3, hexVal h4 with
            | some a, some b, some c2, some d =>
                parseJStr fuel (Char.ofNat (((a * 16 + b) * 16 + c2) * 16 + d) :: acc) rest3
            | _, _, _, _ => none
          | _ => none
        else none
    else if c.toNat < 32 then none
    else parseJStr fuel (c :: acc) rest

/-- Longest digit run at the front. -/
def digitSpan (cs : List Char) : List Char × List Char :=
  (cs.takeWhile Char.isDigit, cs.dropWhile Char.isDigit)

/-- Parse the optional fraction part of a JSON number. -/
def parseFrac (cs : List Char) : Option (List Char × List Char) :=
  match cs with
  | '.' :: rest =>
    match digitSpan rest with
    | ([], _) => none
    | (ds, rest2) => some ('.' :: ds, rest2)
  | _ => some ([], cs)

/-- Parse the optional exponent part of a JSON number. -/
def parseExp (cs : List Char) : Option (List Char × List Char) :=
  match cs with
  | e :: rest =>
    if e = 'e' ∨ e = 'E' then
      let (sg, rest1) :=
        match rest with
        | s :: r => if s = '+' ∨ s = '-' then ([s], r) else (([] : List Char), rest)
        | [] => ([], rest)
      match digitSpan rest1 with
      | ([], _) => none
      | (ds, rest2) => some (e :: (sg ++ ds), rest2)
    else some ([], cs)
  | [] => some ([], [])

/-- Parse a JSON number lexeme per the RFC 8259 grammar (no leading zeros,
mandatory digits after the point and in the exponent), keeping its text. -/
def parseNumLex (cs : List Char) : Option (String × List Char) :=
  let (sign, cs1) :=
    match cs with
    | '-' :: rest => (['-'], rest)
    | _ => (([] : List Char), cs)
  match cs1 with
  | [] => none
  | c :: rest =>
    if c = '0' ∨ (c.isDigit ∧ c ≠ '0') then
      let (intDigits, rest2) :=
        if c = '0' then (([] : List Char), rest) else digitSpan rest
      match parseFrac rest2 with
      | none => none
      | some (fr, rest3) =>
        match parseExp rest3 with
        | none => none
        | some (ex, rest4) =>
            some (String.mk (sign ++ c :: intDigits ++ fr ++ ex), rest4)
    else none

/-- Recursion mode of the JSON parser: a value, the tail of an array, or the
tail of an object. -/
inductive PMode where
  | value : PMode
  | items : List Json → PMode
  | members : List (String × Json) → PMode

/-- Fuel-based recursive-descent core of `json.loads`.  `value` parses one
JSON value; `items acc` parses array elements after `[` (first element or
after a comma, whitespace already skipped); `members acc` parses object
members likewise.  Python's permissive constants `NaN`, `Infinity` and
`-Infinity` are accepted as numeric lexemes, matching `json.loads`. -/
def parseCore : Nat → PMode → List Char → Option (Json × List Char)
  | 0, _, _ => none
  | fuel + 1, .value, cs =>
    match cs with
    | [] => none
    | c :: rest =>
      if c = '"' then
        match parseJStr (rest.length + 1) [] rest with
        | some (s, r) => some (.str s, r)
        | none => none
      else if c = '{' then
        match skipWs rest with
        | '}' :: r => some (.obj [], r)
        | cs1 => parseCore fuel (.members []) cs1
      else if c = '[' then
        match skipWs rest with
        | ']' :: r => some (.arr [], r)
        | cs1 => parseCore fuel (.items []) cs1
      else if c = 't' then
        match dropLit ("rue").toList rest with
        | some r => some (.bool true, r)
        | none => none
      else if c = 'f' then
        match dropLit ("alse").toList rest with
        | some r => some (.bool false, r)
        | none => none
      else if c = 'n' then
        match dropLit ("ull").toList rest with
        | some r => some (.null, r)
        | none => none
      else if c = 'N' then
        match dropLit ("aN").toList rest with
        | some r => some (.num "NaN", r)
        | none => none
      else if c = 'I' then
        match dropLit ("nfinity").toList rest with
        | some r => some (.num "Infinity", r)
        | none => none
      else if c = '-' then
        match dropLit ("Infinity").toList rest with
        | some r => some (.num "-Infinity", r)
        | none =>
          match parseNumLex cs with
          | some (lex, r) => some (.num lex, r)
          | none => none
      else
        match parseNumLex cs with
        | some (lex, r) => some (.num lex, r)
        | none => none
  | fuel + 1, .items acc, cs =>
    match parseCore fuel .value cs with
    | none => none
    | some (v, r) =>
      match skipWs r with
      | ',' :: r2 => parseCore fuel (.items (v :: acc)) (skipWs r2)
      | ']' :: r2 => some (.arr (v :: acc).reverse, r2)
      | _ => none
  | fuel + 1, .members acc, cs =>
    match cs with
    | '"' :: rest =>
      match parseJStr (rest.length + 1) [] rest with
      | none => none
      | some (k, r) =>
        match skipWs r with
        | ':' :: r2 =>
          match parseCore fuel .value (skipWs r2) with
          | none => none
          | some (v, r3) =>
            match skipWs r3 with
            | ',' :: r4 => parseCore fuel (.members (upsert k v acc)) (skipWs r4)
            | '}' :: r4 => some (.obj (upsert k v acc), r4)
            | _ => none
        | _ => none
    | _ => none

/-- Model of Python `json.loads` on the cleaned text: parse exactly one JSON
document, allowing surrounding whitespace, rejecting trailing data.
`none` is `json.JSONDecodeError`. -/
def json_loads (cs : List Char) : Option Json :=
  match parseCore (2 * cs.length + 4) .value (skipWs cs) with
  | some (v, rest) => if skipWs rest = [] then some v else none
  | none => none

/-- A tool call extracted by `_select_tools` (`ai_agent_debug.py`, dataclass
`ToolCall`).  Python is dynamically typed: each field holds whatever JSON
value sat under the required key. -/
structure ToolCall where
  connector_name : Json
  tool_name : Json
  arguments : Json
  reasoning : Json

/-- Python `dict.get(key, default)`. -/
def getDefault (fields : List (String × Json)) (key : String) (dflt : Json) : Json :=
  match alistGet key fields with
  | some v => v
  | none => dflt

/-- Python `dict[key]` on a parsed-JSON object: `KeyError` if the key is
absent, whose `str()` is the quoted key. -/
def requireKey (fields : List (String × Json)) (key : String) : Except String Json :=
  match alistGet key fields with
  | some v => .ok v
  | none => .error ("\x27" ++ key ++ "\x27")

/-- Build one `ToolCall` from one entry of `tool_calls`
(`ai_agent_debug.py` lines 166-171): the four subscripts are evaluated in
source order, the first missing key raising `KeyError`.  A non-`dict` entry
raises `TypeError`; its type-dependent message is abbreviated, no claim
reads it. -/
def buildToolCall (entry : Json) : Except String ToolCall :=
  match entry with
  | .obj fields => do
    let cn ← requireKey fields "connector_name"
    let tn ← requireKey fields "tool_name"
    let args ← requireKey fields "arguments"
    let r ← requireKey fields "reasoning"
    .ok ⟨cn, tn, args, r⟩
  | _ => .error "tool call entry is not subscriptable by string keys"

/-- Python `for call_data in value` over the `tool_calls` value: a list
yields its elements, a dict its keys, a string its one-character strings;
anything else raises `TypeError` (message abbreviated, no claim reads it). -/
def iterEntries (v : Json) : Except String (List Json) :=
  match v with
  | .arr xs => .ok xs
  | .obj fields => .ok (fields.map (fun p => Json.str p.1))
  | .str s => .ok (s.toList.map (fun c => Json.str (String.mk [c])))
  | _ => .error "object is not iterable"

/-- Sequential loop building the tool-call list: the first exception aborts
the whole loop (Python propagates it out of the `for`). -/
def mapExcept (f : α → Except ε β) : List α → Except ε (List β)
  | [] => .ok []
  | a :: as =>
    match f a with
    | .error e => .error e
    | .ok b =>
      match mapExcept f as with
      | .error e => .error e
      | .ok bs => .ok (b :: bs)

/-- Extraction from the parsed JSON (`ai_agent_debug.py` lines 162-174):
`reasoning = result.get("reasoning", "")`, then the loop over
`result.get("tool_calls", [])`.  Any exception of the loop reaches the
handler at line 182 and yields `("Error in tool selection: " + str(e), [])`.
A non-`dict` top-level value raises `AttributeError` at `result.get`
(message abbreviated, no claim reads it). -/
def extractCalls (j : Json) : Json × List ToolCall :=
  match j with
  | .obj fields =>
    let reasoning := getDefault fields "reasoning" (.str "")
    match iterEntries (getDefault fields "tool_calls" (.arr [])) with
    | .error e => (.str ("Error in tool selection: " ++ e), [])
    | .ok entries =>
      match mapExcept buildToolCall entries with
      | .error e => (.str ("Error in tool selection: " ++ e), [])
      | .ok calls => (reasoning, calls)
  | _ =>
    (.str ("Error in tool selection: object has no attribute \x27get\x27"), [])

/-- Model of `AIAgentDebug._select_tools` from the reasoning backend's
outcome onward (`ai_agent_debug.py` lines 129-185).  The oracle input is the
backend call of lines 130-143: `.ok text` is the returned response text,
`.error e` any exception it raised (caught at line 182).  On response text:
clean (lines 145-153), `json.loads` (line 159) with `JSONDecodeError`
mapped to the fixed diagnostic of line 180, then field extraction. -/
def select_tools (resp : Except String String) : Json × List ToolCall :=
  match resp with
  | .error e => (.str ("Error in tool selection: " ++ e), [])
  | .ok raw =>
    match json_loads (cleanContent raw.toList) with
    | none => (.str "Failed to parse tool selection", [])
    | some j => extractCalls j

/-- Result of one MCP tool call (`mcp_client.py`, pydantic `MCPToolResult`):
a list of content blocks (each a dict) and an optional error string. -/
structure MCPToolResult where
  content : List (List (String × Json))
  error : Option String

/-- A registered connector's observable behavior.  `MCPClient.call_tool`
catches every exception and returns an `MCPToolResult` carrying the error
text, so a connector is a total function of tool name and arguments. -/
def Connector : Type := Json → Json → MCPToolResult

/-- Model of `MCPConnectorManager.call_tool_on_connector`
(`mcp_client.py` lines 176-196): `ValueError` with the message
"Connector '<name>' not found" when the name is not a registered key,
otherwise the connector's (total) `call_tool`.  The registry is the
`self.connectors` dict as an insertion-ordered association list.
A non-string name is likewise never a key and raises (`ValueError`, or
`TypeError` for an unhashable name); its `repr`-dependent message is
abbreviated, no claim reads it. -/
def call_tool_on_connector (registry : List (String × Connector))
    (connector_name tool_name arguments : Json) : Except String MCPToolResult :=
  match connector_name with
  | .str s =>
    match alistGet s registry with
    | some client => .ok (client tool_name arguments)
    | none => .error ("Connector \x27" ++ s ++ "\x27 not found")
  | _ => .error "Connector not found: non-string connector name"

/-- The dispatch function the executor uses: one manager call per ToolCall. -/
def managerDispatch (registry : List (String × Connector)) :
    ToolCall → Except String MCPToolResult :=
  fun c => call_tool_on_connector registry c.connector_name c.tool_name c.arguments

/-- One entry of the executor's result list (`ai_agent_debug.py` lines
201-215): the Python dict
`{"tool_call": ..., "success": ..., "result": ..., "error": ...}`. -/
structure ExecResult where
  tool_call : ToolCall
  success : Bool
  result : Option MCPToolResult
  error : Option String

/-- Body of the executor loop (`ai_agent_debug.py` lines 194-215): dispatch,
on a returned result record success iff `result.error is None`, on any
exception record a failure with `str(e)`. -/
def runOneCall (dispatch : ToolCall → Except String MCPToolResult)
    (c : ToolCall) : ExecResult :=
  match dispatch c with
  | .ok r => ⟨c, r.error.isNone, some r, r.error⟩
  | .error e => ⟨c, false, none, some e⟩

/-- Model of `AIAgentDebug._execute_tool_calls` (lines 187-217): the strictly
sequential loop appending one `ExecResult` per call. -/
def execute_tool_calls (dispatch : ToolCall → Except String MCPToolResult) :
    List ToolCall → List ExecResult
  | [] => []
  | c :: rest => runOneCall dispatch c :: execute_tool_calls dispatch rest

/-- Python `str()` of a parsed-JSON value, as interpolated by an f-string.
Exact for strings, booleans, `None` and integer lexemes (the only cases the
pipeline's prompts exercise); the container and float renderings abbreviate
Python's `repr`-based text, which no claim reads. -/
def pyStr : Json → String
  | .str s => s
  | .bool true => "True"
  | .bool false => "False"
  | .null => "None"
  | .num lex => lex
  | .arr _ => "<list>"
  | .obj _ => "<dict>"

/-- Python `str()` of an `Optional[str]` in an f-string. -/
def optStr : Option String → String
  | some s => s
  | none => "None"

/-- One line of the results summary (`ai_agent_debug.py` lines 222-232).
`i` is the 0-based loop index.  The `success`-with-`None`-result branch is
unreachable from the executor (which pairs `success` only with a present
result); Python would raise `AttributeError` there, and the rendering below
is a placeholder the orchestrator never produces. -/
def summaryLine (i : Nat) (r : ExecResult) : String :=
  if r.success then
    match r.result with
    | some res =>
      match res.content with
      | [] =>
        "Tool " ++ toString (i + 1) ++ ": " ++ pyStr r.tool_call.tool_name
          ++ " - Success (no content)"
      | block :: _ =>
        "Tool " ++ toString (i + 1) ++ ": " ++ pyStr r.tool_call.tool_name
          ++ " - Success\nResult: " ++ pyStr (getDefault block "text" (.str "No text content"))
    | none => "AttributeError: \x27NoneType\x27 object has no attribute \x27content\x27"
  else
    "Tool " ++ toString (i + 1) ++ ": " ++ pyStr r.tool_call.tool_name
      ++ " - Failed\nError: " ++ optStr r.error

/-- The `enumerate(results)` loop of `_create_summary_prompt`: one line per
outcome, numbered from `i`. -/
def summaryLines (i : Nat) : List ExecResult → List String
  | [] => []
  | r :: rest => summaryLine i r :: summaryLines (i + 1) rest

/-- Python `"\n".join(lines)` (the template uses `chr(10)`). -/
def joinNl : List String → String
  | [] => ""
  | [s] => s
  | s :: rest => s ++ "\n" ++ joinNl rest

/-- Model of `AIAgentDebug._create_summary_prompt` (lines 219-245): the
f-string template around the query, the selection reasoning and the joined
per-outcome lines. -/
def create_summary_prompt (user_query : String) (reasoning : Json)
    (results : List ExecResult) : String :=
  "\nYou are an AI assistant that has executed some tools based on a user\x27s request. Please provide a clear, helpful summary of what was accomplished.\n\nOriginal user request: "
    ++ user_query
    ++ "\n\nYour reasoning: " ++ pyStr reasoning
    ++ "\n\nTool execution results:\n" ++ joinNl (summaryLines 0 results)
    ++ "\n\nPlease provide a natural language summary of what was accomplished, what the results mean, and any next steps the user might want to take. Be conversational and helpful.\n"

/-- Model of `AIAgentDebug._generate_summary` (lines 247-265): call the
reasoning backend on the prompt; any exception is caught and becomes the
diagnostic narrative embedding `str(e)`. -/
def generate_summary (prompt : String) (backend : String → Except String String) : String :=
  match backend prompt with
  | .ok text => text
  | .error e => "Error generating summary: " ++ e

/-- The dictionary `process_request` returns (lines 283-289 and 297-303).
Both return sites set `"success": True`. -/
structure ProcessResult where
  success : Bool
  reasoning : Json
  tool_calls : List ToolCall
  results : List ExecResult
  summary : String

/-- Observable side effects of one `process_request` run, for stating that
the EXECUTING and SUMMARIZING phases are or are not entered: one event per
tool dispatch, one for the summary reasoning call. -/
inductive PhaseEvent where
  | dispatched : ToolCall → PhaseEvent
  | summarized : PhaseEvent

/-- Model of `AIAgentDebug.process_request` (lines 267-303).  Oracles:
`selectResp` is the selection backend's outcome (see `select_tools`),
`dispatch` the per-call provider dispatch, `summaryBackend` the backend's
response as a function of the summary prompt.  `if not tool_calls` is the
match on the extracted list: the empty batch short-circuits to the fixed
record with no dispatch and no summary call (no `PhaseEvent`s). -/
def process_request (selectResp : Except String String)
    (dispatch : ToolCall → Except String MCPToolResult)
    (summaryBackend : String → Except String String)
    (user_query : String) : ProcessResult × List PhaseEvent :=
  match select_tools selectResp with
  | (reasoning, []) =>
    (⟨true, reasoning, [], [], "No tools were needed for this request."⟩, [])
  | (reasoning, c :: rest) =>
    let results := execute_tool_calls dispatch (c :: rest)
    let summary :=
      generate_summary (create_summary_prompt user_query reasoning results) summaryBackend
    (⟨true, reasoning, c :: rest, results, summary⟩,
     (c :: rest).map PhaseEvent.dispatched ++ [PhaseEvent.summarized])

/-- Outcome of `remove_connector`: the updated registry table and the
clients whose sessions were closed (`__aexit__` calls), in order. -/
structure RemoveOutcome (κ : Type) where
  registry : List (String × κ)
  closed : List κ

/-- Python `del d[name]` on the registry dict: remove the entry at the key
(the first matching entry; dict keys are unique). -/
def eraseKey (name : String) : List (String × κ) → List (String × κ)
  | [] => []
  | (k, v) :: rest => if k = name then rest else (k, v) :: eraseKey name rest

/-- Model of `MCPConnectorManager.remove_connector` (`mcp_client.py` lines
170-174): when the name is a registered key, close that client's session and
delete the entry; otherwise fall through the `if` and do nothing.  The
`Except` result type records the possibility of raising; this code returns
normally on both branches. -/
def remove_connector (registry : List (String × κ)) (name : String) :
    Except String (RemoveOutcome κ) :=
  match alistGet name registry with
  | some client => .ok ⟨eraseKey name registry, [client]⟩
  | none => .ok ⟨registry, []⟩

/-- Boolean success test of an `Except` (Python: the call did not raise). -/
def exceptOk : Except ε α → Bool
  | .ok _ => true
  | .error _ => false

/-- A dispatch oracle for concrete runs whose calls must never be reached. -/
def dispatchStub : ToolCall → Except String MCPToolResult :=
  fun _ => .error "unreachable dispatch"

/-- A summary backend oracle that answers every prompt with a fixed text. -/
def backendStub : String → Except String String :=
  fun _ => .ok "summary text"

/-- A connector whose every tool call succeeds with one text block. -/
def okConnector : Connector :=
  fun _ _ => ⟨[[("text", Json.str "done")]], none⟩

/-- Sample selection response: a plain JSON object, no fence. -/
def unwrappedSel : String := "\x7b\"reasoning\": \"r\", \"tool_calls\": []\x7d"

/-- The same object wrapped in a "```json"-tagged fence. -/
def taggedSel : String :=
  "```json\n\x7b\"reasoning\": \"r\", \"tool_calls\": []\x7d\n```"

/-- The same object wrapped in a bare "```" fence with no language tag. -/
def bareSel : String :=
  "```\n\x7b\"reasoning\": \"r\", \"tool_calls\": []\x7d\n```"

/-- Sample selection response extracting zero tool calls. -/
def emptyCallsSel : String :=
  "\x7b\"reasoning\": \"nothing to do\", \"tool_calls\": []\x7d"

/-- Sample selection response extracting exactly one well-formed call. -/
def oneCallSel : String :=
  "\x7b\"reasoning\": \"go\", \"tool_calls\": [\x7b\"connector_name\": \"wf\", \"tool_name\": \"start\", \"arguments\": \x7b\x7d, \"reasoning\": \"why\"\x7d]\x7d"

/-- The tool call extracted from `oneCallSel`. -/
def oneCall : ToolCall := ⟨.str "wf", .str "start", .obj [], .str "why"⟩

/-- A well-formed `tool_calls` entry (all four required keys). -/
def goodEntry : Json :=
  .obj [("connector_name", .str "wf"), ("tool_name", .str "a"),
        ("arguments", .obj []), ("reasoning", .str "ok")]

/-- A malformed `tool_calls` entry: the key "reasoning" is missing. -/
def badEntry : Json :=
  .obj [("connector_name", .str "wf"), ("tool_name", .str "b"),
        ("arguments", .obj [])]

/-- Sample selection response holding `goodEntry` then `badEntry`. -/
def badBatchSel : String :=
  "\x7b\"reasoning\": \"two\", \"tool_calls\": [\x7b\"connector_name\": \"wf\", \"tool_name\": \"a\", \"arguments\": \x7b\x7d, \"reasoning\": \"ok\"\x7d, \x7b\"connector_name\": \"wf\", \"tool_name\": \"b\", \"arguments\": \x7b\x7d\x7d]\x7d"

/-- The parsed top-level fields of `badBatchSel`. -/
def badBatchFields : List (String × Json) :=
  [("reasoning", .str "two"), ("tool_calls", .arr [goodEntry, badEntry])]

/-! Sanity evaluations of the embedded `json.loads`. -/

example : json_loads (("\x7b\x7d").toList) = some (.obj []) := by rfl

example : json_loads ((" \x7b\"a\": [1, true, null]\x7d ").toList)
    = some (.obj [("a", .arr [.num "1", .bool true, .null])]) := by rfl

example : json_loads (("```").toList) = none := by rfl

example : json_loads (("\x7b\"a\": 1").toList) = none := by rfl

example : select_tools (.ok oneCallSel) = (.str "go", [oneCall]) := by rfl

/-- Helper: the executor's loop body tags each outcome with its own call. -/
theorem runOneCall_tool_call (d : ToolCall → Except String MCPToolResult)
    (c : ToolCall) : (runOneCall d c).tool_call = c := by
  unfold runOneCall
  cases d c <;> rfl

/-- Helper: the executor emits exactly one outcome per call. -/
theorem execute_tool_calls_length (d : ToolCall → Except String MCPToolResult)
    (calls : List ToolCall) :
    (execute_tool_calls d calls).length = calls.length := by
  induction calls with
  | nil => rfl
  | cons c rest ih => simp [execute_tool_calls, ih]

/-- Helper: the i-th outcome is the loop body's value at the i-th call
alone, independent of what dispatch does on every other call. -/
theorem execute_tool_calls_getElem (d : ToolCall → Except String MCPToolResult)
    (calls : List ToolCall) (i : Nat) :
    (execute_tool_calls d calls)[i]? = (calls[i]?).map (runOneCall d) := by
  induction calls generalizing i with
  | nil => simp [execute_tool_calls]
  | cons c rest ih =>
    cases i with
    | zero => simp [execute_tool_calls]
    | succ n => simpa [execute_tool_calls] using ih n

/-- C1: for every ordered list of extracted ToolCalls, `_execute_tool_calls`
returns exactly as many outcomes, the i-th outcome carries the i-th call
(`outcomes[i].call == calls[i]`), and the i-th outcome is the loop body's
value at the i-th call alone — so a dispatch exception or provider-reported
error at call k never stops the loop and every later call still gets its own
outcome. -/
theorem executor_one_outcome_per_call_in_order
    (d : ToolCall → Except String MCPToolResult) (calls : List ToolCall) :
    (execute_tool_calls d calls).length = calls.length ∧
    (∀ i : Nat, (execute_tool_calls d calls)[i]? = (calls[i]?).map (runOneCall d)) ∧
    (∀ i : Nat, ((execute_tool_calls d calls)[i]?).map ExecResult.tool_call = calls[i]?) := by
  refine ⟨execute_tool_calls_length d calls,
    fun i => execute_tool_calls_getElem d calls i, fun i => ?_⟩
  rw [execute_tool_calls_getElem d calls i, Option.map_map]
  cases h : calls[i]? with
  | none => rfl
  | some c => simp [Function.comp, runOneCall_tool_call]

/-- C7: a ToolCall naming an unregistered provider yields a failed outcome
(`success = false`) whose failure reason names the provider, no exception
escapes the executor, and the calls before and after it in the batch are
still dispatched and keep their own outcomes. -/
theorem unknown_provider_fails_without_abort
    (registry : List (String × Connector)) (s : String) (c : ToolCall)
    (pre post : List ToolCall)
    (hname : c.connector_name = .str s)
    (hmiss : alistGet s registry = none) :
    execute_tool_calls (managerDispatch registry) (pre ++ c :: post) =
      execute_tool_calls (managerDispatch registry) pre ++
        ExecResult.mk c false none (some ("Connector \x27" ++ s ++ "\x27 not found")) ::
          execute_tool_calls (managerDispatch registry) post := by
  have hbody : runOneCall (managerDispatch registry) c
      = ExecResult.mk c false none (some ("Connector \x27" ++ s ++ "\x27 not found")) := by
    simp [runOneCall, managerDispatch, call_tool_on_connector, hname, hmiss]
  induction pre with
  | nil => simp [execute_tool_calls, hbody]
  | cons p ps ih => simp [execute_tool_calls, ih]

/-- C7 witness: a two-call batch against a registry holding only "alpha";
the first call names the unregistered provider "wf", fails with the message
naming it, and the second call still runs. -/
theorem unknown_provider_fails_without_abort_witness :
    (ToolCall.mk (.str "wf") (.str "start") (.obj []) (.str "why")).connector_name
        = Json.str "wf" ∧
    alistGet "wf" [("alpha", okConnector)] = none ∧
    execute_tool_calls (managerDispatch [("alpha", okConnector)])
        ([] ++ ToolCall.mk (.str "wf") (.str "start") (.obj []) (.str "why") ::
          [ToolCall.mk (.str "alpha") (.str "t") (.obj []) (.str "r2")]) =
      execute_tool_calls (managerDispatch [("alpha", okConnector)]) [] ++
        ExecResult.mk (ToolCall.mk (.str "wf") (.str "start") (.obj []) (.str "why"))
            false none (some ("Connector \x27wf\x27 not found")) ::
          execute_tool_calls (managerDispatch [("alpha", okConnector)])
            [ToolCall.mk (.str "alpha") (.str "t") (.obj []) (.str "r2")] :=
  ⟨rfl, rfl, unknown_provider_fails_without_abort _ "wf" _ [] _ rfl rfl⟩

/-- C8: whenever the cleaned response text is not valid JSON, extraction
does not raise: it returns the fixed diagnostic rationale with an empty
tool-call list, and `process_request` continues to a normal result with zero
tool calls (the short-circuit record) instead of aborting. -/
theorem invalid_json_fail_soft (raw : String)
    (hbad : json_loads (cleanContent raw.toList) = none)
    (dispatch : ToolCall → Except String MCPToolResult)
    (summaryBackend : String → Except String String) (q : String) :
    select_tools (.ok raw) = (.str "Failed to parse tool selection", []) ∧
    process_request (.ok raw) dispatch summaryBackend q =
      (⟨true, .str "Failed to parse tool selection", [], [],
        "No tools were needed for this request."⟩, []) := by
  have hred : select_tools (.ok raw)
      = (match json_loads (cleanContent raw.toList) with
         | none => (Json.str "Failed to parse tool selection", [])
         | some j => extractCalls j) := rfl
  have h1 : select_tools (.ok raw) = (.str "Failed to parse tool selection", []) := by
    rw [hred, hbad]
  refine ⟨h1, ?_⟩
  unfold process_request
  rw [h1]

/-- C8 witness: the unparseable response "not json". -/
theorem invalid_json_fail_soft_witness :
    json_loads (cleanContent ("not json").toList) = none ∧
    (select_tools (.ok "not json") = (.str "Failed to parse tool selection", []) ∧
      process_request (.ok "not json") dispatchStub backendStub "q" =
        (⟨true, .str "Failed to parse tool selection", [], [],
          "No tools were needed for this request."⟩, [])) :=
  ⟨rfl, invalid_json_fail_soft "not json" rfl dispatchStub backendStub "q"⟩

/-- Helper: the extraction loop fails as a whole when any element of the
list makes the loop body raise. -/
theorem mapExcept_error_of_mem (f : α → Except ε β) :
    ∀ l : List α, (∃ a ∈ l, exceptOk (f a) = false) → ∃ e, mapExcept f l = .error e := by
  intro l
  induction l with
  | nil =>
    rintro ⟨a, ha, _⟩
    exact absurd ha (List.not_mem_nil a)
  | cons x xs ih =>
    rintro ⟨a, ha, hfa⟩
    rcases List.mem_cons.mp ha with h | h
    · subst h
      cases hx : f a with
      | ok b => rw [hx] at hfa; simp [exceptOk] at hfa
      | error e => exact ⟨e, by simp [mapExcept, hx]⟩
    · cases hx : f x with
      | error e => exact ⟨e, by simp [mapExcept, hx]⟩
      | ok b =>
        obtain ⟨e, he⟩ := ih ⟨a, h, hfa⟩
        exact ⟨e, by simp [mapExcept, hx, he]⟩

/-- C4: when the parsed selection response has a `tool_calls` entry missing
one of the four required keys, the whole extraction fails: the call list is
empty (the well-formed entries of the batch included) and the rationale is
the exception diagnostic — the malformed entry is not skipped-and-continued. -/
theorem malformed_entry_aborts_extraction (raw : String)
    (fields : List (String × Json)) (entries : List Json)
    (hparse : json_loads (cleanContent raw.toList) = some (.obj fields))
    (hiter : iterEntries (getDefault fields "tool_calls" (.arr [])) = .ok entries)
    (hbad : ∃ entry ∈ entries, exceptOk (buildToolCall entry) = false) :
    (select_tools (.ok raw)).2 = [] ∧
    ∃ msg, (select_tools (.ok raw)).1 = .str ("Error in tool selection: " ++ msg) := by
  obtain ⟨m, hm⟩ := mapExcept_error_of_mem buildToolCall entries hbad
  have hred : select_tools (.ok raw)
      = (match json_loads (cleanContent raw.toList) with
         | none => (Json.str "Failed to parse tool selection", [])
         | some j => extractCalls j) := rfl
  have h1 : select_tools (.ok raw)
      = (.str ("Error in tool selection: " ++ m), []) := by
    rw [hred, hparse]
    show (match iterEntries (getDefault fields "tool_calls" (.arr [])) with
          | .error e => (Json.str ("Error in tool selection: " ++ e), ([] : List ToolCall))
          | .ok entries =>
            match mapExcept buildToolCall entries with
            | .error e => (Json.str ("Error in tool selection: " ++ e), [])
            | .ok calls => (getDefault fields "reasoning" (.str ""), calls)) = _
    rw [hiter]
    show (match mapExcept buildToolCall entries with
          | .error e => (Json.str ("Error in tool selection: " ++ e), ([] : List ToolCall))
          | .ok calls => (getDefault fields "reasoning" (.str ""), calls)) = _
    rw [hm]
  exact ⟨by rw [h1], m, by rw [h1]⟩

/-- C4 witness: a two-entry batch whose first entry is well-formed and whose
second entry is missing "reasoning"; the extracted call list is empty. -/
theorem malformed_entry_aborts_extraction_witness :
    json_loads (cleanContent badBatchSel.toList) = some (.obj badBatchFields) ∧
    iterEntries (getDefault badBatchFields "tool_calls" (.arr []))
      = .ok [goodEntry, badEntry] ∧
    exceptOk (buildToolCall badEntry) = false ∧
    ((select_tools (.ok badBatchSel)).2 = [] ∧
      ∃ msg, (select_tools (.ok badBatchSel)).1
        = .str ("Error in tool selection: " ++ msg)) :=
  ⟨rfl, rfl, rfl,
    malformed_entry_aborts_extraction badBatchSel badBatchFields [goodEntry, badEntry]
      rfl rfl ⟨badEntry, List.mem_cons.mpr (Or.inr (List.mem_cons_self badEntry [])), rfl⟩⟩

/-- C3 (code bug): the cleaning step only strips an opening fence written
exactly "```json".  A valid JSON object wrapped in a bare "```" fence with
no language tag keeps its opening fence, so `json.loads` fails and the
extraction returns the parse-failure diagnostic with no calls — unlike the
same object unwrapped or wrapped in a "```json" fence, which both extract
`("r", [])`.  The code's own comment ("Remove any markdown code blocks") and
the repository's `test_json_parsing.py` (whose copy of "the same cleaning
logic" also strips a bare opening fence) say the bare fence should be
tolerated. -/
theorem bare_fence_not_stripped :
    select_tools (.ok unwrappedSel) = (.str "r", []) ∧
    select_tools (.ok taggedSel) = (.str "r", []) ∧
    select_tools (.ok bareSel) = (.str "Failed to parse tool selection", []) :=
  ⟨rfl, rfl, rfl⟩

/-- C5: when extraction yields zero tool calls, `process_request` returns
the terminal record with empty calls, empty outcomes and the fixed
"no tools were needed" narrative, and the EXECUTING and SUMMARIZING phases
are skipped entirely: the run has no dispatch event and no summary event,
whatever the dispatch and summary oracles are. -/
theorem zero_calls_short_circuit (selectResp : Except String String)
    (dispatch : ToolCall → Except String MCPToolResult)
    (summaryBackend : String → Except String String) (q : String)
    (hzero : (select_tools selectResp).2 = []) :
    process_request selectResp dispatch summaryBackend q =
      (⟨true, (select_tools selectResp).1, [], [],
        "No tools were needed for this request."⟩, []) := by
  have hpair : select_tools selectResp = ((select_tools selectResp).1, []) := by
    rw [← hzero]
  unfold process_request
  rw [hpair]

/-- C5 witness: a response whose `tool_calls` array is empty short-circuits
to the fixed record. -/
theorem zero_calls_short_circuit_witness :
    (select_tools (.ok emptyCallsSel)).2 = [] ∧
    process_request (.ok emptyCallsSel) dispatchStub backendStub "list things" =
      (⟨true, (select_tools (.ok emptyCallsSel)).1, [], [],
        "No tools were needed for this request."⟩, []) :=
  ⟨rfl, zero_calls_short_circuit _ dispatchStub backendStub "list things" rfl⟩

/-- C2 counterexample: both failure modes of the reasoning/extraction phase
named by the claim — the reasoning call raising, and the response failing to
parse — still yield a returned result with `succeeded = true` (the rationale
field carries the diagnostic, showing the phase did fail in each run). -/
theorem extraction_failure_still_success :
    (process_request (.error "boom") dispatchStub backendStub "q").1.success = true ∧
    (process_request (.error "boom") dispatchStub backendStub "q").1.reasoning =
      .str "Error in tool selection: boom" ∧
    (process_request (.ok "not valid json") dispatchStub backendStub "q").1.success = true ∧
    (process_request (.ok "not valid json") dispatchStub backendStub "q").1.reasoning =
      .str "Failed to parse tool selection" :=
  ⟨rfl, rfl, rfl, rfl⟩

/-- C2 amended: every completed `process_request` run returns
`succeeded = true` — runs with failed tool calls included, and also runs
whose reasoning/extraction phase failed (those degrade to the zero-call
result carrying a diagnostic rationale). -/
theorem process_request_always_success (selectResp : Except String String)
    (dispatch : ToolCall → Except String MCPToolResult)
    (summaryBackend : String → Except String String) (q : String) :
    (process_request selectResp dispatch summaryBackend q).1.success = true := by
  unfold process_request
  rcases hsel : select_tools selectResp with ⟨r, _ | ⟨c, rest⟩⟩ <;> rfl

/-- C6: if the summary-phase backend call fails, `process_request` still
returns a record whose narrative is the diagnostic string embedding the
failure cause, whose `succeeded` stays true, and whose rationale, calls and
outcomes are exactly the values the earlier phases computed. -/
theorem summary_failure_keeps_results (selectResp : Except String String)
    (dispatch : ToolCall → Except String MCPToolResult)
    (e q : String) (c : ToolCall) (rest : List ToolCall)
    (hsel : (select_tools selectResp).2 = c :: rest) :
    (process_request selectResp dispatch (fun _ => .error e) q).1 =
      ⟨true, (select_tools selectResp).1, c :: rest,
        execute_tool_calls dispatch (c :: rest),
        "Error generating summary: " ++ e⟩ := by
  have hpair : select_tools selectResp = ((select_tools selectResp).1, c :: rest) := by
    rw [← hsel]
  unfold process_request
  rw [hpair]
  exact rfl

/-- C6 witness: a one-call run whose summary backend raises "backend down". -/
theorem summary_failure_keeps_results_witness :
    (select_tools (.ok oneCallSel)).2 = oneCall :: [] ∧
    (process_request (.ok oneCallSel) (managerDispatch [("wf", okConnector)])
        (fun _ => .error "backend down") "do it").1 =
      ⟨true, (select_tools (.ok oneCallSel)).1, oneCall :: [],
        execute_tool_calls (managerDispatch [("wf", okConnector)]) (oneCall :: []),
        "Error generating summary: backend down"⟩ :=
  ⟨rfl, summary_failure_keeps_results (.ok oneCallSel)
    (managerDispatch [("wf", okConnector)]) "backend down" "do it" oneCall [] rfl⟩

/-- Helper: a key absent from the key list is not found. -/
theorem alistGet_eq_none_of_not_mem (k : String) :
    ∀ l : List (String × κ), k ∉ l.map Prod.fst → alistGet k l = none := by
  intro l
  induction l with
  | nil => intro _; rfl
  | cons p rest ih =>
    intro h
    obtain ⟨k0, v⟩ := p
    simp only [List.map_cons, List.mem_cons, not_or] at h
    unfold alistGet
    rw [if_neg (fun hh => h.1 hh.symm)]
    exact ih h.2

/-- Helper: with unique keys, deleting a key makes it unfindable. -/
theorem alistGet_eraseKey_self (name : String) :
    ∀ l : List (String × κ), (l.map Prod.fst).Nodup →
      alistGet name (eraseKey name l) = none := by
  intro l
  induction l with
  | nil => intro _; rfl
  | cons p rest ih =>
    intro hnd
    obtain ⟨k0, v⟩ := p
    simp only [List.map_cons, List.nodup_cons] at hnd
    unfold eraseKey
    by_cases hk : k0 = name
    · rw [if_pos hk]
      subst hk
      exact alistGet_eq_none_of_not_mem k0 rest hnd.1
    · rw [if_neg hk]
      unfold alistGet
      rw [if_neg hk]
      exact ih hnd.2

/-- Helper: deleting one key leaves every other key's binding unchanged. -/
theorem alistGet_eraseKey_ne (name m : String) (hne : m ≠ name) :
    ∀ l : List (String × κ), alistGet m (eraseKey name l) = alistGet m l := by
  intro l
  induction l with
  | nil => rfl
  | cons p rest ih =>
    obtain ⟨k0, v⟩ := p
    by_cases hk : k0 = name
    · have h1 : eraseKey name ((k0, v) :: rest) = rest := by
        show (if k0 = name then rest else (k0, v) :: eraseKey name rest) = rest
        rw [if_pos hk]
      have h2 : alistGet m ((k0, v) :: rest) = alistGet m rest := by
        show (if k0 = m then some v else alistGet m rest) = alistGet m rest
        rw [if_neg (fun hh => hne (hh.symm.trans hk))]
      rw [h1, h2]
    · have h1 : eraseKey name ((k0, v) :: rest) = (k0, v) :: eraseKey name rest := by
        show (if k0 = name then rest else (k0, v) :: eraseKey name rest)
            = (k0, v) :: eraseKey name rest
        rw [if_neg hk]
      rw [h1]
      show (if k0 = m then some v else alistGet m (eraseKey name rest))
          = if k0 = m then some v else alistGet m rest
      by_cases hm : k0 = m
      · rw [if_pos hm, if_pos hm]
      · rw [if_neg hm, if_neg hm]
        exact ih

/-- C9 counterexample: removing an unregistered name is a silent no-op —
`remove_connector` returns normally (no UnknownProvider error, no error of
any kind), the registry is unchanged and no session is closed. -/
theorem remove_connector_absent_is_noop :
    remove_connector [("alpha", okConnector)] "ghost"
      = .ok ⟨[("alpha", okConnector)], []⟩ ∧
    exceptOk (remove_connector [("alpha", okConnector)] "ghost") = true :=
  ⟨rfl, rfl⟩

/-- C9 amended: on a registry with unique keys, `remove_connector` of a
registered name closes exactly that client's session and deletes its entry
(leaving every other name's binding intact), and of an unregistered name
returns successfully with the registry unchanged and nothing closed —
it does not fail with an UnknownProvider error. -/
theorem remove_connector_spec (registry : List (String × κ)) (name : String)
    (hnodup : (registry.map Prod.fst).Nodup) :
    (∀ client, alistGet name registry = some client →
      remove_connector registry name = .ok ⟨eraseKey name registry, [client]⟩ ∧
      alistGet name (eraseKey name registry) = none ∧
      ∀ m, m ≠ name → alistGet m (eraseKey name registry) = alistGet m registry) ∧
    (alistGet name registry = none →
      remove_connector registry name = .ok ⟨registry, []⟩) := by
  constructor
  · intro client hc
    refine ⟨?_, alistGet_eraseKey_self name registry hnodup,
      fun m hm => alistGet_eraseKey_ne name m hm registry⟩
    unfold remove_connector
    rw [hc]
  · intro hn
    unfold remove_connector
    rw [hn]

/-- C9 amended witness: removing "a" from a two-entry registry closes
client 1, removes the "a" entry and keeps the "b" entry findable. -/
theorem remove_connector_spec_witness :
    ((([("a", 1), ("b", 2)] : List (String × Nat)).map Prod.fst).Nodup) ∧
    alistGet "a" ([("a", 1), ("b", 2)] : List (String × Nat)) = some 1 ∧
    (remove_connector ([("a", 1), ("b", 2)] : List (String × Nat)) "a"
        = .ok ⟨eraseKey "a" [("a", 1), ("b", 2)], [1]⟩ ∧
      alistGet "a" (eraseKey "a" ([("a", 1), ("b", 2)] : List (String × Nat))) = none ∧
      ∀ m, m ≠ "a" →
        alistGet m (eraseKey "a" ([("a", 1), ("b", 2)] : List (String × Nat)))
          = alistGet m [("a", 1), ("b", 2)]) :=
  ⟨by decide, rfl,
    (remove_connector_spec ([("a", 1), ("b", 2)] : List (String × Nat)) "a"
      (by decide)).1 1 rfl⟩

/-- Helper: replacing one outcome by another that renders to the same line
at every index leaves the numbered line list unchanged. -/
theorem summaryLines_congr_at (x1 x2 : ExecResult)
    (h : ∀ j, summaryLine j x1 = summaryLine j x2) :
    ∀ (i : Nat) (pre post : List ExecResult),
      summaryLines i (pre ++ x1 :: post) = summaryLines i (pre ++ x2 :: post) := by
  intro i pre
  induction pre generalizing i with
  | nil =>
    intro post
    simp only [List.nil_append, summaryLines, h i]
  | cons p ps ih =>
    intro post
    show summaryLine i p :: summaryLines (i + 1) (ps ++ x1 :: post)
        = summaryLine i p :: summaryLines (i + 1) (ps ++ x2 :: post)
    rw [ih]

/-- C10: the summary prompt renders a successful outcome from its first
content block alone — dropping every later block of that outcome leaves the
whole prompt unchanged — and a successful outcome with an empty payload is
rendered as the fixed "Success (no content)" line. -/
theorem summary_prompt_uses_first_block_only
    (q : String) (reasoning : Json) (pre post : List ExecResult) (c : ToolCall)
    (err : Option String) (b : List (String × Json))
    (blocks : List (List (String × Json))) :
    create_summary_prompt q reasoning
        (pre ++ ExecResult.mk c true (some ⟨b :: blocks, err⟩) err :: post) =
      create_summary_prompt q reasoning
        (pre ++ ExecResult.mk c true (some ⟨[b], err⟩) err :: post) ∧
    (∀ i : Nat, summaryLine i (ExecResult.mk c true (some ⟨[], err⟩) err) =
      "Tool " ++ toString (i + 1) ++ ": " ++ pyStr c.tool_name
        ++ " - Success (no content)") := by
  constructor
  · unfold create_summary_prompt
    rw [summaryLines_congr_at (ExecResult.mk c true (some ⟨b :: blocks, err⟩) err)
      (ExecResult.mk c true (some ⟨[b], err⟩) err) (fun j => rfl) 0 pre post]
  · intro i
    rfl
